import Mathlib

/-!
# Verification of the Eclipse Ditto Python client protocol layer

A shallow embedding of the protocol encoding/decoding layer of the
`ditto-clients-python` repository: identifier types (`NamespacedID`,
`DefinitionID`), the `Topic` addressing value, `Headers`, `Envelope`,
`Feature`, the `Command` signal builder's channel methods, the client's
`unsubscribe`, and the Hono request-id extraction utility.

Python strings are embedded as `List Char` (`Str`); Python `None` is
`Option.none` for typed fields and the `PyVal.none` constructor for
JSON-like dynamic values; Python exceptions (`IndexError`, `KeyError`,
`AttributeError`) propagate through `Except PyErr`.  Python string
subclasses used as tags (`_TopicGroup`, `_TopicChannel`, ...) are
represented by their underlying string value; all compared fields in the
claims hold values of the same tag kind, for which the source's `__eq__`
is string-value equality.
-/

/-- A Python `str`, embedded as its list of characters. -/
abbrev Str := List Char

/-- Literal helper: the character list of a Lean string literal. -/
def str (s : String) : Str := s.data

/-- Python exceptions that the modelled code can raise.  `unmodeled` marks
a code path whose resulting state lies outside the typed model (assignment
of a non-dict value to `Envelope.headers`); Python itself does not raise
there. -/
inductive PyErr where
  | indexError
  | keyError
  | attributeError
  | unmodeled
deriving DecidableEq

/-- Split a string at its first occurrence of `sep`: `some (before, after)`
with the separator removed, or `none` when `sep` does not occur. -/
def splitFirst (sep : Char) : Str → Option (Str × Str)
  | [] => none
  | c :: cs =>
    if c = sep then some ([], cs)
    else (splitFirst sep cs).map fun p => (c :: p.1, p.2)

/-- Python's `s.split(sep, maxsplit)`: at most `n` splits, the remainder is
kept whole.  `"".split(sep, n) = [""]` holds, as in Python. -/
def pySplit (sep : Char) : Nat → Str → List Str
  | 0, s => [s]
  | n + 1, s =>
    match splitFirst sep s with
    | none => [s]
    | some (a, b) => a :: pySplit sep n b

/-- Python's `s.split(sep)` without a maxsplit bound. -/
def splitAll (sep : Char) : Str → List Str
  | [] => [[]]
  | c :: cs =>
    if c = sep then [] :: splitAll sep cs
    else
      match splitAll sep cs with
      | [] => [[c]]
      | s :: rest => (c :: s) :: rest

/-- Strip the literal pattern `p` from the front of `s`. -/
def stripPre : Str → Str → Option Str
  | [], s => some s
  | _ :: _, [] => none
  | q :: qs, c :: cs => if c = q then stripPre qs cs else none

theorem splitFirst_of_not_mem {sep : Char} {a : Str} (h : sep ∉ a) :
    splitFirst sep a = none := by
  induction a with
  | nil => rfl
  | cons c cs ih =>
    have hc : c ≠ sep := fun hc => h (hc ▸ List.mem_cons_self c cs)
    have hcs : sep ∉ cs := fun hm => h (List.mem_cons_of_mem c hm)
    simp [splitFirst, hc, ih hcs]

theorem splitFirst_append {sep : Char} {a : Str} (b : Str) (h : sep ∉ a) :
    splitFirst sep (a ++ sep :: b) = some (a, b) := by
  induction a with
  | nil => simp [splitFirst]
  | cons c cs ih =>
    have hc : c ≠ sep := fun hc => h (hc ▸ List.mem_cons_self c cs)
    have hcs : sep ∉ cs := fun hm => h (List.mem_cons_of_mem c hm)
    simp [splitFirst, hc, ih hcs]

theorem pySplit_of_not_mem {sep : Char} {a : Str} (n : Nat) (h : sep ∉ a) :
    pySplit sep n a = [a] := by
  cases n with
  | zero => rfl
  | succ m => simp [pySplit, splitFirst_of_not_mem h]

theorem pySplit_cons {sep : Char} {a : Str} (n : Nat) (b : Str) (h : sep ∉ a) :
    pySplit sep (n + 1) (a ++ sep :: b) = a :: pySplit sep n b := by
  simp [pySplit, splitFirst_append b h]

theorem splitAll_ne_nil (sep : Char) (s : Str) : splitAll sep s ≠ [] := by
  cases s with
  | nil => simp [splitAll]
  | cons c cs =>
    by_cases h : c = sep
    · simp [splitAll, h]
    · simp only [splitAll, h, if_false]
      cases splitAll sep cs <;> simp

/-- Rejoin the pieces produced by `splitAll` with the separator. -/
def joinSep (sep : Char) : List Str → Str
  | [] => []
  | [x] => x
  | x :: y :: rest => x ++ sep :: joinSep sep (y :: rest)

theorem splitAll_join (sep : Char) (s : Str) :
    joinSep sep (splitAll sep s) = s := by
  induction s with
  | nil => rfl
  | cons c cs ih =>
    by_cases h : c = sep
    · rw [h]
      simp only [splitAll, if_pos rfl]
      cases hs : splitAll sep cs with
      | nil => exact absurd hs (splitAll_ne_nil sep cs)
      | cons x rest =>
        rw [hs] at ih
        simp [joinSep, ih]
    · simp only [splitAll, h, if_false]
      cases hs : splitAll sep cs with
      | nil => exact absurd hs (splitAll_ne_nil sep cs)
      | cons x rest =>
        rw [hs] at ih
        cases rest with
        | nil => simpa [joinSep] using ih
        | cons y t => simpa [joinSep] using ih

theorem splitAll_not_mem (sep : Char) (s : Str) :
    ∀ x ∈ splitAll sep s, sep ∉ x := by
  induction s with
  | nil => simp [splitAll]
  | cons c cs ih =>
    by_cases h : c = sep
    · subst h
      simp only [splitAll, if_true]
      intro x hx
      rcases List.mem_cons.mp hx with hx | hx
      · subst hx; simp
      · exact ih x hx
    · simp only [splitAll, h, if_false]
      cases hs : splitAll sep cs with
      | nil => exact absurd hs (splitAll_ne_nil sep cs)
      | cons y rest =>
        intro x hx
        rcases List.mem_cons.mp hx with hx | hx
        · subst hx
          intro hmem
          rcases List.mem_cons.mp hmem with hc | hc
          · exact h hc.symm
          · exact ih y (hs ▸ List.mem_cons_self y rest) hc
        · exact ih x (hs ▸ List.mem_cons_of_mem y hx)

theorem stripPre_eq {p s r : Str} (h : stripPre p s = some r) : s = p ++ r := by
  induction p generalizing s with
  | nil => simpa [stripPre] using h
  | cons q qs ih =>
    cases s with
    | nil => simp [stripPre] at h
    | cons c cs =>
      by_cases hc : c = q
      · subst hc
        simp only [stripPre, if_true] at h
        simpa using ih h
      · simp [stripPre, hc] at h

/-- A Python JSON-compatible value (the `Any`-typed payloads of the client).
`PyVal.none` is Python's `None`. -/
inductive PyVal where
  | none
  | bool (b : Bool)
  | int (n : Int)
  | str (s : Str)
  | list (xs : List PyVal)
  | dict (entries : List (Str × PyVal))

/-- A Python dictionary with string keys, in insertion order. -/
abbrev Dict := List (Str × PyVal)

/-- Model of `v is None` (the identity check used by the serializers' filters). -/
def PyVal.isNone : PyVal → Bool
  | .none => true
  | _ => false

/-- Model of `v == {}` on Python values: only the empty dict equals `{}`. -/
def PyVal.isEmptyDict : PyVal → Bool
  | .dict [] => true
  | _ => false

/-- Model of `v == []` on Python values: only the empty list equals `[]`. -/
def PyVal.isEmptyList : PyVal → Bool
  | .list [] => true
  | _ => false

/-- Model of `d[k]` / `k in d` lookup on a Python dictionary (first match). -/
def dlookup (k : Str) : Dict → Option PyVal
  | [] => Option.none
  | (k', v) :: rest => if k' = k then some v else dlookup k rest

/-- Python's `None` prints as the string `"None"` under `"{}".format`. -/
def pyShow : Option Str → Str
  | Option.none => str "None"
  | some s => s

/-- Model of `ditto.model.namespaced_id.NamespacedID`: `{namespace, name}`, both
defaulting to `None`. -/
structure NamespacedID where
  nspace : Option Str
  name : Option Str
deriving DecidableEq

/-- A fresh `NamespacedID()`. -/
def NamespacedID.default : NamespacedID := ⟨Option.none, Option.none⟩

/-- Model of `NamespacedID.__str__`: `"{}:{}".format(namespace, name)`. -/
def NamespacedID.toStr (x : NamespacedID) : Str :=
  pyShow x.nspace ++ ':' :: pyShow x.name

/-- Model of `NamespacedID.from_string`: a falsy (empty) input leaves `self`
untouched; otherwise split on the first `:` and reinitialize; a string
without `:` raises `IndexError` at `elements[1]`. -/
def NamespacedID.from_string (self : NamespacedID) (s : Str) :
    Except PyErr NamespacedID :=
  if s = [] then .ok self
  else
    match pySplit ':' 1 s with
    | [a, b] => .ok ⟨some a, some b⟩
    | _ => .error .indexError

/-- Model of `ditto.model.definition_id.DefinitionID`: `{namespace, name, version}`. -/
structure DefinitionID where
  nspace : Option Str
  name : Option Str
  version : Option Str
deriving DecidableEq

/-- A fresh `DefinitionID()`. -/
def DefinitionID.default : DefinitionID := ⟨Option.none, Option.none, Option.none⟩

/-- Model of `DefinitionID.__str__`: `"{}:{}:{}".format(namespace, name, version)`. -/
def DefinitionID.toStr (x : DefinitionID) : Str :=
  pyShow x.nspace ++ ':' :: pyShow x.name ++ ':' :: pyShow x.version

/-- Model of `DefinitionID.from_string`: falsy input is a no-op; otherwise split on
`:` with maxsplit 2 and reinitialize; fewer than three parts raises
`IndexError`. -/
def DefinitionID.from_string (self : DefinitionID) (s : Str) :
    Except PyErr DefinitionID :=
  if s = [] then .ok self
  else
    match pySplit ':' 2 s with
    | [a, b, c] => .ok ⟨some a, some b, some c⟩
    | _ => .error .indexError

/-- Model of `ditto.protocol.topic.Topic`: six optional string-valued segments.  The
string-subclass wrappers (`_TopicGroup` etc.) are represented by their
underlying string value. -/
structure Topic where
  nspace : Option Str
  entity_id : Option Str
  group : Option Str
  channel : Option Str
  criterion : Option Str
  action : Option Str
deriving DecidableEq

/-- A fresh `Topic()`: every field is `None`. -/
def Topic.default : Topic :=
  ⟨Option.none, Option.none, Option.none, Option.none, Option.none, Option.none⟩

/-- The constant `Topic.GROUP_THINGS`. -/
def Topic.groupThings : Str := str "things"

/-- The constant `Topic.GROUP_POLICIES`. -/
def Topic.groupPolicies : Str := str "policies"

/-- Model of `Topic.__str__`: emit `namespace/entity_id/group`, then for the
policies group the suffixes `criterion, action`, otherwise
`channel, criterion, action`; each suffix is appended only when truthy
(neither `None` nor empty). -/
def Topic.toStr (t : Topic) : Str :=
  (if t.group = some Topic.groupPolicies then [t.criterion, t.action]
   else [t.channel, t.criterion, t.action]).foldl
    (fun acc o =>
      match o with
      | some s => if s.isEmpty then acc else acc ++ '/' :: s
      | Option.none => acc)
    (pyShow t.nspace ++ '/' :: pyShow t.entity_id ++ '/' :: pyShow t.group)

/-- The segment assignments of `Topic.from_string`, acting on the list
`elements` produced by the maxsplit-5 split: segments 0-2 are
namespace/entity_id/group; for the things group segment 3 is the channel
and criterion/action sit at 4/5, otherwise criterion/action sit at 3/4; a
missing mandatory segment raises `IndexError` (`elements[i]` out of
range); a missing optional action leaves `self.action` unchanged. -/
def Topic.from_elements (self : Topic) (el : List Str) : Except PyErr Topic :=
  match el.get? 0, el.get? 1, el.get? 2 with
  | some ns, some eid, some g =>
    if g = Topic.groupThings then
      match el.get? 3, el.get? 4 with
      | some ch, some cr =>
        .ok { self with
          nspace := some ns, entity_id := some eid, group := some g,
          channel := some ch, criterion := some cr,
          action := match el.get? 5 with
            | some a => some a
            | Option.none => self.action }
      | _, _ => .error .indexError
    else
      match el.get? 3 with
      | some cr =>
        .ok { self with
          nspace := some ns, entity_id := some eid, group := some g,
          criterion := some cr,
          action := match el.get? 4 with
            | some a => some a
            | Option.none => self.action }
      | Option.none => .error .indexError
  | _, _, _ => .error .indexError

/-- Model of `Topic.from_string` proper: `elements = topic_string.split("/", 5)`
followed by the segment assignments of `Topic.from_elements`. -/
def Topic.from_string (self : Topic) (s : Str) : Except PyErr Topic :=
  Topic.from_elements self (pySplit '/' 5 s)

/-- Model of `ditto.protocol.headers.Headers`: a backing map `values` from header
names to arbitrary values. -/
structure Headers where
  values : List (Str × PyVal)

/-- A fresh `Headers()`: empty backing map. -/
def Headers.default : Headers := ⟨[]⟩

/-- The dictionary-comprehension filter `{k: v for k, v in d if v is not
None}` (insertion order preserved). -/
def dropNone : Dict → Dict
  | [] => []
  | (k, v) :: rest =>
    if v.isNone then dropNone rest else (k, v) :: dropNone rest

/-- Model of `Headers.to_ditto_dict`: keep exactly the entries of `values` whose
value is not `None`. -/
def Headers.to_ditto_dict (h : Headers) : Dict := dropNone h.values

/-- Model of `ditto.protocol.envelope.Envelope`.  `topic` and `headers` are the
typed fields; the remaining fields are dynamically typed in Python
(assigned raw JSON values by `from_ditto_dict`), hence `PyVal` with
`PyVal.none` for `None`. -/
structure Envelope where
  topic : Option Topic
  headers : Option Headers
  path : PyVal
  value : PyVal
  fields : PyVal
  extra : PyVal
  status : PyVal
  revision : PyVal
  timestamp : PyVal

/-- A fresh `Envelope()`: the constructor replaces a falsy `headers`
argument by `Headers()`, every other field defaults to `None`. -/
def Envelope.default : Envelope :=
  ⟨Option.none, some Headers.default, .none, .none, .none, .none, .none, .none, .none⟩

/-- Model of `str(self.topic)` as used by `Envelope.to_ditto_dict` (`None.__str__()`
is the string `"None"`). -/
def topicShowOpt : Option Topic → Str
  | Option.none => str "None"
  | some t => t.toStr

/-- Model of `Envelope.to_ditto_dict`: build `{topic: str(topic)}`, add `headers`
only if not `None`, add the seven remaining fields unconditionally, then
filter out entries whose value is `None`. -/
def Envelope.to_ditto_dict (e : Envelope) : Dict :=
  let tail : Dict :=
    [(str "path", e.path), (str "value", e.value), (str "fields", e.fields),
     (str "extra", e.extra), (str "status", e.status),
     (str "revision", e.revision), (str "timestamp", e.timestamp)]
  let full : Dict :=
    match e.headers with
    | some h =>
      (str "topic", .str (topicShowOpt e.topic))
        :: (str "headers", .dict h.to_ditto_dict) :: tail
    | Option.none => (str "topic", .str (topicShowOpt e.topic)) :: tail
  dropNone full

/-- The class-level list `__ditto_json_keys_all`. -/
def envelopeJsonKeysAll : List Str :=
  [str "topic", str "headers", str "path", str "value", str "fields",
   str "extra", str "status", str "revision", str "timestamp"]

/-- The per-key copies `if key in d: self.key = d[key]` performed by
`Envelope.from_ditto_dict` in its recognized branch. -/
def Envelope.populate (self : Envelope) (d : Dict) (tp : Topic)
    (hd : Option Headers) : Envelope :=
  { self with
    topic := some tp
    headers := hd
    path := (dlookup (str "path") d).getD self.path
    value := (dlookup (str "value") d).getD self.value
    status := (dlookup (str "status") d).getD self.status
    fields := (dlookup (str "fields") d).getD self.fields
    extra := (dlookup (str "extra") d).getD self.extra
    revision := (dlookup (str "revision") d).getD self.revision
    timestamp := (dlookup (str "timestamp") d).getD self.timestamp }

/-- Model of `Envelope.from_ditto_dict`: recognized only when the input shares a key
with the known envelope keys and contains `topic`; on recognition the
topic string is parsed (a malformed one propagates `IndexError`, a
non-string raises `AttributeError` inside `str.split`), `headers` is
decoded via `Headers.from_ditto_dict` (a fresh `Headers()` when absent),
and each remaining recognized key is copied verbatim when present.  The
source performs those independent assignments sequentially on `self`; the
simultaneous record update below is equivalent.  A non-dict `headers`
value would put the raw value into `self.headers` in Python — a state
outside the typed model, signalled by `PyErr.unmodeled`.  On
non-recognition the input dictionary itself is returned, `self` untouched. -/
def Envelope.from_ditto_dict (self : Envelope) (d : Dict) :
    Except PyErr (Envelope ⊕ Dict) :=
  if (envelopeJsonKeysAll.any fun k => (dlookup k d).isSome)
      && (dlookup (str "topic") d).isSome then
    match dlookup (str "topic") d with
    | some (.str s) =>
      match Topic.from_string Topic.default s with
      | .error e => .error e
      | .ok tp =>
        match dlookup (str "headers") d with
        | some (.dict entries) => .ok (.inl (Envelope.populate self d tp (some ⟨entries⟩)))
        | some _ => .error .unmodeled
        | Option.none => .ok (.inl (Envelope.populate self d tp (some Headers.default)))
    | some _ => .error .attributeError
    | Option.none => .error .keyError
  else .ok (.inr d)

/-- Model of `ditto.model.feature.Feature`: `definition` is `None` or a list of
`DefinitionID`; `properties` and `desired_properties` are always maps
(never `None`). -/
structure Feature where
  definition : Option (List DefinitionID)
  properties : Dict
  desired_properties : Dict

/-- Model of `Feature.__init__`: a `None` properties / desired_properties argument
is replaced by an empty map, so the in-memory object always holds non-null
maps for both. -/
def Feature.init (definition : Option (List DefinitionID))
    (properties desired_properties : Option Dict) : Feature :=
  ⟨definition, properties.getD [], desired_properties.getD []⟩

/-- The filter `{k: v for k, v in d.items() if v != {} and v != []}` of
`Feature.to_ditto_dict`. -/
def dropEmpties : Dict → Dict
  | [] => []
  | (k, v) :: rest =>
    if v.isEmptyDict || v.isEmptyList then dropEmpties rest
    else (k, v) :: dropEmpties rest

/-- Model of `Feature.to_ditto_dict`: add `definition` (stringified) only when the
definition list is truthy, always add `properties` and
`desiredProperties`, then drop every entry equal to `{}` or `[]`. -/
def Feature.to_ditto_dict (f : Feature) : Dict :=
  let defEntry : Dict :=
    match f.definition with
    | some defs =>
      if defs.isEmpty then []
      else [(str "definition", .list (defs.map fun d => .str d.toStr))]
    | Option.none => []
  dropEmpties (defEntry ++
    [(str "properties", .dict f.properties),
     (str "desiredProperties", .dict f.desired_properties)])

/-- Model of `ditto.protocol.things.commands.Command`: the builder state relevant to
the channel methods. -/
structure Command where
  topic : Topic
  path : Str
  payload : PyVal

/-- Model of `Topic.with_channel`. -/
def Topic.with_channel (t : Topic) (ch : Str) : Topic := { t with channel := some ch }

/-- Model of `Command.live`: sets the topic's channel to `live` and `return self`.
The result pairs the mutated builder with the Python return value. -/
def Command.live (c : Command) : Command × Option Command :=
  let c' : Command := { c with topic := c.topic.with_channel (str "live") }
  (c', some c')

/-- Model of `Command.twin`: sets the topic's channel to `twin`; the method body has
no `return` statement, so Python returns `None`. -/
def Command.twin (c : Command) : Command × Option Command :=
  let c' : Command := { c with topic := c.topic.with_channel (str "twin") }
  (c', Option.none)

/-- Model of `list.remove(x)`: drop the first occurrence, or `none` (a raised
`ValueError`) when `x` is absent. -/
def removeFirst {α : Type} [DecidableEq α] : List α → α → Option (List α)
  | [], _ => Option.none
  | x :: xs, a =>
    if x = a then some xs else (removeFirst xs a).map (x :: ·)

/-- Model of `Client.unsubscribe(*args)` acting on the handler list.  A variadic
call with no arguments binds `args` to the empty tuple, never to `None`,
so `funcs_to_remove = self._handlers if args is None else args` always
selects `args`; each listed handler is removed with `list.remove`, and a
`ValueError` for an absent handler is caught by the surrounding
`except` block, which leaves the list as it stood and abandons the
remaining removals. -/
def Client.unsubscribe {α : Type} [DecidableEq α] (handlers : List α) :
    List α → List α
  | [] => handlers
  | a :: rest =>
    match removeFirst handlers a with
    | Option.none => handlers
    | some l => Client.unsubscribe l rest

/-- The anchored regex `^command///req/([^/]*)/([^/]+)$` of
`ditto.utils`, as a parser: strip the literal head, then the remainder
must consist of exactly two slash-free segments with a non-empty second
one.  (`[^/]` also matches a newline, so a match reaching `$` via a
trailing-newline position is subsumed by the groups themselves.) -/
def honoReqPat : Str := str "command///req/"

/-- Model of `_extract_hono_req_id`: the first capture group when the topic matches
the request-topic regex, the empty string otherwise. -/
def extract_hono_req_id (topic : Str) : Str :=
  match stripPre honoReqPat topic with
  | Option.none => []
  | some rest =>
    match splitAll '/' rest with
    | [id, subj] => if subj.isEmpty then [] else id
    | _ => []

/-- The language of the regex `^command///req/([^/]*)/([^/]+)$`, stated as
the spec phrases it: topic strings of the shape
`command///req/<requestId>/<subject>` with a slash-free (possibly empty)
request id and a slash-free non-empty subject. -/
def HonoReqMatch (topic : Str) : Prop :=
  ∃ id subj, topic = honoReqPat ++ id ++ '/' :: subj ∧
    '/' ∉ id ∧ '/' ∉ subj ∧ subj ≠ []

theorem dropNone_eq_filter (l : Dict) :
    dropNone l = l.filter fun p => !p.2.isNone := by
  induction l with
  | nil => rfl
  | cons a rest ih =>
    obtain ⟨k, v⟩ := a
    by_cases hv : v.isNone <;> simp [dropNone, List.filter, hv, ih]

theorem dropNone_sublist (l : Dict) : (dropNone l).Sublist l := by
  rw [dropNone_eq_filter]; exact List.filter_sublist l

theorem mem_dropNone (p : Str × PyVal) (l : Dict) :
    p ∈ dropNone l ↔ p ∈ l ∧ p.2.isNone = false := by
  rw [dropNone_eq_filter, List.mem_filter, Bool.not_eq_true']

/-- C6: `Headers.to_ditto_dict` returns exactly the entries of the backing
map whose value is not `None`: the result is a sublist of the backing map
(no reordering, no other transformation), an entry belongs to it iff it
belongs to the backing map with a non-`None` value, and in particular
entries valued `False`, `0`, the empty string and the empty list are kept
while a `None`-valued entry is dropped. -/
theorem headers_to_ditto_dict_filters_none (h : Headers) :
    h.to_ditto_dict.Sublist h.values ∧
    (∀ p : Str × PyVal,
      p ∈ h.to_ditto_dict ↔ p ∈ h.values ∧ p.2.isNone = false) ∧
    Headers.to_ditto_dict
        ⟨[(str "a", .bool false), (str "b", .int 0), (str "c", .str []),
          (str "d", .list []), (str "e", .none)]⟩
      = [(str "a", .bool false), (str "b", .int 0), (str "c", .str []),
         (str "d", .list [])] := by
  refine ⟨dropNone_sublist h.values, fun p => mem_dropNone p h.values, ?_⟩
  rfl

/-- C7 (code bug): `Client.unsubscribe()` called with no arguments is a
no-op on the handler list — Python binds the variadic `args` to the empty
tuple, never `None`, so the `if args is None` full-clear branch never
runs; with a registered handler the list stays `[1]`, and in general the
list is returned unchanged, contradicting the method's own docstring
("If args is not given, then all handlers will be removed"). -/
theorem unsubscribe_no_args_is_noop :
    Client.unsubscribe [1] ([] : List Nat) = [1] ∧
    ∀ l : List Nat, Client.unsubscribe l [] = l :=
  ⟨rfl, fun _ => rfl⟩

/-- C10: `Command.twin` sets the topic's channel to `"twin"` but the
method body ends without a `return`, so the call evaluates to `None`,
while `Command.live` sets the channel to `"live"` and returns the builder
itself — chaining after `twin()` is broken, after `live()` it works. -/
theorem command_twin_returns_none_live_returns_self (c : Command) :
    (Command.twin c).2 = Option.none ∧
    (Command.twin c).1.topic.channel = some (str "twin") ∧
    (Command.live c).2 = some (Command.live c).1 ∧
    (Command.live c).1.topic.channel = some (str "live") :=
  ⟨rfl, rfl, rfl, rfl⟩

/-- C5: `NamespacedID` round-trips through its string form whenever the
namespace is colon-free (the name may contain colons: the parse splits on
the first colon only), and `DefinitionID` round-trips whenever namespace
and name are colon-free (the version may contain colons: maxsplit 2). -/
theorem namespaced_and_definition_id_roundtrip (n m u w : Str)
    (hn : ':' ∉ n) (hm : ':' ∉ m) :
    NamespacedID.from_string NamespacedID.default
        (NamespacedID.toStr ⟨some n, some u⟩) = .ok ⟨some n, some u⟩ ∧
    DefinitionID.from_string DefinitionID.default
        (DefinitionID.toStr ⟨some n, some m, some w⟩)
      = .ok ⟨some n, some m, some w⟩ := by
  constructor
  · have hs : NamespacedID.toStr ⟨some n, some u⟩ = n ++ ':' :: u := rfl
    rw [NamespacedID.from_string, hs]
    have hne : n ++ ':' :: u ≠ [] := by simp
    rw [if_neg hne, pySplit_cons 0 u hn]
    rfl
  · have hs : DefinitionID.toStr ⟨some n, some m, some w⟩
        = n ++ ':' :: (m ++ ':' :: w) := by
      show (n ++ ':' :: m) ++ ':' :: w = n ++ ':' :: (m ++ ':' :: w)
      simp [List.append_assoc]
    rw [DefinitionID.from_string, hs]
    have hne : n ++ ':' :: (m ++ ':' :: w) ≠ [] := by simp
    rw [if_neg hne, pySplit_cons 1 (m ++ ':' :: w) hn, pySplit_cons 0 w hm]
    rfl

/-- Witness for C5 at a concrete input: namespace `org.eclipse.ditto`, a
colon-bearing name for the `NamespacedID` and a colon-bearing version for
the `DefinitionID`. -/
theorem namespaced_and_definition_id_roundtrip_witness :
    NamespacedID.from_string NamespacedID.default
        (NamespacedID.toStr ⟨some (str "org.eclipse.ditto"), some (str "x:y")⟩)
      = .ok ⟨some (str "org.eclipse.ditto"), some (str "x:y")⟩ ∧
    DefinitionID.from_string DefinitionID.default
        (DefinitionID.toStr ⟨some (str "org.eclipse.ditto"), some (str "SomeModel"),
          some (str "1.0.0:z")⟩)
      = .ok ⟨some (str "org.eclipse.ditto"), some (str "SomeModel"),
          some (str "1.0.0:z")⟩ :=
  namespaced_and_definition_id_roundtrip
    (str "org.eclipse.ditto") (str "SomeModel") (str "x:y") (str "1.0.0:z")
    (by decide) (by decide)

/-- C9: when both `properties` and `desired_properties` are empty maps,
`Feature.to_ditto_dict` contains neither the `properties` key nor the
`desiredProperties` key (their entries are removed by the `v != {}`
filter), even though the in-memory `Feature` — as `Feature.init` shows —
always holds non-null (possibly empty) maps for both fields. -/
theorem feature_to_ditto_dict_omits_empty_maps (f : Feature)
    (hp : f.properties = []) (hd : f.desired_properties = []) :
    dlookup (str "properties") f.to_ditto_dict = Option.none ∧
    dlookup (str "desiredProperties") f.to_ditto_dict = Option.none := by
  unfold Feature.to_ditto_dict
  rw [hp, hd]
  cases hdef : f.definition with
  | none => exact ⟨rfl, rfl⟩
  | some defs =>
    cases defs with
    | nil => exact ⟨rfl, rfl⟩
    | cons q qs =>
      constructor <;>
          simp [dropEmpties, dlookup, PyVal.isEmptyDict, PyVal.isEmptyList] <;>
        decide

/-- Witness for C9: a `Feature()` constructed with all-default arguments. -/
theorem feature_to_ditto_dict_omits_empty_maps_witness :
    dlookup (str "properties")
        (Feature.init Option.none Option.none Option.none).to_ditto_dict
      = Option.none ∧
    dlookup (str "desiredProperties")
        (Feature.init Option.none Option.none Option.none).to_ditto_dict
      = Option.none :=
  feature_to_ditto_dict_omits_empty_maps
    (Feature.init Option.none Option.none Option.none) rfl rfl

theorem from_elements_short_errors (el : List Str) (t : Topic)
    (h : el.length < 4) :
    Topic.from_elements t el = .error .indexError := by
  match el, h with
  | [], _ => rfl
  | [a], _ => rfl
  | [a, b], _ => rfl
  | [a, b, g], _ =>
    by_cases hg : g = Topic.groupThings <;>
      simp [Topic.from_elements, hg, List.get?]

/-- C2 (amended): `Topic.from_string` on an input with fewer than four
slash-separated segments raises `IndexError` (there is no `MalformedTopic`
error anywhere in the code), while an input whose group segment is empty
but which has at least four segments does not fail: it parses
successfully, with the empty string stored as the group. -/
theorem topic_from_string_short_input_errors :
    (∀ s : Str, (pySplit '/' 5 s).length < 4 →
      Topic.from_string Topic.default s = .error .indexError) ∧
    Topic.from_string Topic.default (str "a/b//c")
      = .ok ⟨some (str "a"), some (str "b"), some [], Option.none,
          some (str "c"), Option.none⟩ := by
  constructor
  · intro s h
    exact from_elements_short_errors _ _ h
  · rfl

/-- Witness for C2 at the concrete two-segment input `a/b`. -/
theorem topic_from_string_short_input_errors_witness :
    (pySplit '/' 5 (str "a/b")).length < 4 ∧
    Topic.from_string Topic.default (str "a/b") = .error .indexError :=
  ⟨by decide, topic_from_string_short_input_errors.1 (str "a/b") (by decide)⟩

/-- C2 as stated is false: the four-segment input `a/b//c` has an empty
group segment, yet `Topic.from_string` succeeds (returning a topic whose
group is the empty string) instead of failing — and no `MalformedTopic`
error exists in the code at all. -/
theorem topic_from_string_empty_group_succeeds :
    Topic.from_string Topic.default (str "a/b//c")
      = .ok ⟨some (str "a"), some (str "b"), some [], Option.none,
          some (str "c"), Option.none⟩ := rfl

/-- C1 (amended): the things-topic round-trip
`Topic().from_string(str(t)) == t` holds for topics whose namespace and
entity id are slash-free and whose channel and criterion are slash-free
and non-empty, with an action that is either unset or slash-free and
non-empty.  (The extra well-formedness conditions are forced: `__str__`
silently drops empty segments and a slash inside a segment shifts every
later segment, so the claim's bare non-`None` requirement is not enough —
see the counterexample.) -/
theorem topic_roundtrip_things (n e c r : Str) (o : Option Str)
    (hn : '/' ∉ n) (he : '/' ∉ e)
    (hc : '/' ∉ c) (hc0 : c ≠ [])
    (hr : '/' ∉ r) (hr0 : r ≠ [])
    (ho : match o with
      | Option.none => True
      | some a => '/' ∉ a ∧ a ≠ []) :
    Topic.from_string Topic.default
        (Topic.toStr ⟨some n, some e, some Topic.groupThings, some c, some r, o⟩)
      = .ok ⟨some n, some e, some Topic.groupThings, some c, some r, o⟩ := by
  have hg : ('/' : Char) ∉ Topic.groupThings := by decide
  obtain ⟨c1, cs, rfl⟩ := List.exists_cons_of_ne_nil hc0
  obtain ⟨r1, rs, rfl⟩ := List.exists_cons_of_ne_nil hr0
  cases o with
  | none =>
    have hstr : Topic.toStr
          ⟨some n, some e, some Topic.groupThings, some (c1 :: cs),
           some (r1 :: rs), Option.none⟩
        = n ++ '/' :: (e ++ '/' :: (Topic.groupThings
            ++ '/' :: ((c1 :: cs) ++ '/' :: (r1 :: rs)))) := by
      simp only [Topic.toStr]
      rw [if_neg (by decide)]
      simp [pyShow, List.append_assoc]
    rw [Topic.from_string, hstr]
    rw [pySplit_cons 4 _ hn, pySplit_cons 3 _ he, pySplit_cons 2 _ hg,
        pySplit_cons 1 _ hc, pySplit_of_not_mem 1 hr]
    rfl
  | some a =>
    obtain ⟨ha, ha0⟩ := ho
    obtain ⟨a1, al, rfl⟩ := List.exists_cons_of_ne_nil ha0
    have hstr : Topic.toStr
          ⟨some n, some e, some Topic.groupThings, some (c1 :: cs),
           some (r1 :: rs), some (a1 :: al)⟩
        = n ++ '/' :: (e ++ '/' :: (Topic.groupThings
            ++ '/' :: ((c1 :: cs) ++ '/' :: ((r1 :: rs) ++ '/' :: (a1 :: al))))) := by
      simp only [Topic.toStr]
      rw [if_neg (by decide)]
      simp [pyShow, List.append_assoc]
    rw [Topic.from_string, hstr]
    rw [pySplit_cons 4 _ hn, pySplit_cons 3 _ he, pySplit_cons 2 _ hg,
        pySplit_cons 1 _ hc, pySplit_cons 0 _ hr]
    rfl

/-- Witness for C1 at a concrete topic:
`org.eclipse.ditto/fancy-thing/things/twin/commands/create`. -/
theorem topic_roundtrip_things_witness :
    Topic.from_string Topic.default
        (Topic.toStr ⟨some (str "org.eclipse.ditto"), some (str "fancy-thing"),
          some Topic.groupThings, some (str "twin"), some (str "commands"),
          some (str "create")⟩)
      = .ok ⟨some (str "org.eclipse.ditto"), some (str "fancy-thing"),
          some Topic.groupThings, some (str "twin"), some (str "commands"),
          some (str "create")⟩ :=
  topic_roundtrip_things (str "org.eclipse.ditto") (str "fancy-thing")
    (str "twin") (str "commands") (some (str "create"))
    (by decide) (by decide) (by decide) (by decide) (by decide) (by decide)
    (by decide)

/-- C1 as stated is false: this topic has `group=things` and non-`None`
namespace, entity id, channel and criterion, yet because its namespace
contains a slash the round-trip returns a different topic (the segments
shift: the parsed group becomes `b`... and the original channel ends up as
the action). -/
theorem topic_roundtrip_things_counterexample :
    Topic.from_string Topic.default
        (Topic.toStr ⟨some (str "a/b"), some (str "e"), some Topic.groupThings,
          some (str "twin"), some (str "commands"), Option.none⟩)
      = .ok ⟨some (str "a"), some (str "b"), some (str "e"), Option.none,
          some (str "things"), some (str "twin")⟩ ∧
    (⟨some (str "a"), some (str "b"), some (str "e"), Option.none,
        some (str "things"), some (str "twin")⟩ : Topic)
      ≠ ⟨some (str "a/b"), some (str "e"), some Topic.groupThings,
          some (str "twin"), some (str "commands"), Option.none⟩ :=
  ⟨rfl, by decide⟩

theorem dlookup_eq_none_of_absent (k : Str) (l : Dict)
    (h : k ∉ l.map Prod.fst) : dlookup k l = Option.none := by
  induction l with
  | nil => rfl
  | cons a rest ih =>
    obtain ⟨q, w⟩ := a
    simp only [List.map_cons, List.mem_cons] at h
    push_neg at h
    have hq : ¬q = k := fun hh => h.1 hh.symm
    simp [dlookup, hq, ih h.2]

theorem dropNone_dlookup_eq_none_of_absent (k : Str) (l : Dict)
    (h : k ∉ l.map Prod.fst) : dlookup k (dropNone l) = Option.none := by
  induction l with
  | nil => rfl
  | cons a rest ih =>
    obtain ⟨q, w⟩ := a
    simp only [List.map_cons, List.mem_cons] at h
    push_neg at h
    have hq : ¬q = k := fun hh => h.1 hh.symm
    by_cases hw : w.isNone <;>
      simp [dropNone, dlookup, hw, hq, ih h.2]

/-- Looking a key up in the `None`-filtered form of a duplicate-free
dictionary gives the stored value exactly when that value is not `None`. -/
theorem dlookup_dropNone_nodup (k : Str) (l : Dict)
    (h : (l.map Prod.fst).Nodup) :
    dlookup k (dropNone l) =
      match dlookup k l with
      | some w => if w.isNone then Option.none else some w
      | Option.none => Option.none := by
  induction l with
  | nil => rfl
  | cons a rest ih =>
    obtain ⟨q, w⟩ := a
    simp only [List.map_cons, List.nodup_cons] at h
    obtain ⟨hq, hrest⟩ := h
    by_cases hk : q = k
    · subst hk
      by_cases hw : w.isNone
      · simp [dropNone, dlookup, hw,
          dropNone_dlookup_eq_none_of_absent q rest hq]
      · simp [dropNone, dlookup, hw]
    · by_cases hw : w.isNone <;>
        simp [dropNone, dlookup, hw, hk, ih hrest]

/-- C3: for an `Envelope` whose topic is set, `to_ditto_dict` always
contains the `topic` key (bound to the stringified topic), and each of the
seven optional fields `path`/`value`/`fields`/`extra`/`status`/`revision`/
`timestamp` appears under its key exactly when it was set to a non-`None`
value, bound to exactly that value, and is absent when it is `None`. -/
theorem envelope_to_ditto_dict_keys (x : Envelope)
    (h : x.topic.isSome = true) :
    dlookup (str "topic") x.to_ditto_dict
        = some (.str (topicShowOpt x.topic)) ∧
    dlookup (str "path") x.to_ditto_dict
        = (if x.path.isNone then Option.none else some x.path) ∧
    dlookup (str "value") x.to_ditto_dict
        = (if x.value.isNone then Option.none else some x.value) ∧
    dlookup (str "fields") x.to_ditto_dict
        = (if x.fields.isNone then Option.none else some x.fields) ∧
    dlookup (str "extra") x.to_ditto_dict
        = (if x.extra.isNone then Option.none else some x.extra) ∧
    dlookup (str "status") x.to_ditto_dict
        = (if x.status.isNone then Option.none else some x.status) ∧
    dlookup (str "revision") x.to_ditto_dict
        = (if x.revision.isNone then Option.none else some x.revision) ∧
    dlookup (str "timestamp") x.to_ditto_dict
        = (if x.timestamp.isNone then Option.none else some x.timestamp) := by
  cases hh : x.headers with
  | some hdrs =>
    have hkeys : (((str "topic", PyVal.str (topicShowOpt x.topic))
        :: (str "headers", PyVal.dict hdrs.to_ditto_dict)
        :: (str "path", x.path) :: (str "value", x.value)
        :: (str "fields", x.fields) :: (str "extra", x.extra)
        :: (str "status", x.status) :: (str "revision", x.revision)
        :: (str "timestamp", x.timestamp) :: []).map Prod.fst)
        = [str "topic", str "headers", str "path", str "value",
           str "fields", str "extra", str "status", str "revision",
           str "timestamp"] := rfl
    have hnd : (((str "topic", PyVal.str (topicShowOpt x.topic))
        :: (str "headers", PyVal.dict hdrs.to_ditto_dict)
        :: (str "path", x.path) :: (str "value", x.value)
        :: (str "fields", x.fields) :: (str "extra", x.extra)
        :: (str "status", x.status) :: (str "revision", x.revision)
        :: (str "timestamp", x.timestamp) :: []).map Prod.fst).Nodup := by
      rw [hkeys]; decide
    simp only [Envelope.to_ditto_dict, hh]
    refine ⟨?_, ?_, ?_, ?_, ?_, ?_, ?_, ?_⟩ <;>
      · rw [dlookup_dropNone_nodup _ _ hnd]
        rfl
  | none =>
    have hkeys : (((str "topic", PyVal.str (topicShowOpt x.topic))
        :: (str "path", x.path) :: (str "value", x.value)
        :: (str "fields", x.fields) :: (str "extra", x.extra)
        :: (str "status", x.status) :: (str "revision", x.revision)
        :: (str "timestamp", x.timestamp) :: []).map Prod.fst)
        = [str "topic", str "path", str "value", str "fields", str "extra",
           str "status", str "revision", str "timestamp"] := rfl
    have hnd : (((str "topic", PyVal.str (topicShowOpt x.topic))
        :: (str "path", x.path) :: (str "value", x.value)
        :: (str "fields", x.fields) :: (str "extra", x.extra)
        :: (str "status", x.status) :: (str "revision", x.revision)
        :: (str "timestamp", x.timestamp) :: []).map Prod.fst).Nodup := by
      rw [hkeys]; decide
    simp only [Envelope.to_ditto_dict, hh]
    refine ⟨?_, ?_, ?_, ?_, ?_, ?_, ?_, ?_⟩ <;>
      · rw [dlookup_dropNone_nodup _ _ hnd]
        rfl

/-- A sample envelope for the C3 witness: topic set, `path` and `status`
set, the other optional fields never set. -/
def envelopeSampleC3 : Envelope :=
  { Envelope.default with
      topic := some ⟨some (str "a"), some (str "b"), some Topic.groupThings,
        some (str "twin"), some (str "commands"), Option.none⟩,
      path := .str (str "/"),
      status := .int 204 }

/-- Witness for C3 at `envelopeSampleC3`. -/
theorem envelope_to_ditto_dict_keys_witness :
    dlookup (str "topic") envelopeSampleC3.to_ditto_dict
        = some (.str (topicShowOpt envelopeSampleC3.topic)) ∧
    dlookup (str "path") envelopeSampleC3.to_ditto_dict
        = (if envelopeSampleC3.path.isNone then Option.none
           else some envelopeSampleC3.path) ∧
    dlookup (str "value") envelopeSampleC3.to_ditto_dict
        = (if envelopeSampleC3.value.isNone then Option.none
           else some envelopeSampleC3.value) ∧
    dlookup (str "fields") envelopeSampleC3.to_ditto_dict
        = (if envelopeSampleC3.fields.isNone then Option.none
           else some envelopeSampleC3.fields) ∧
    dlookup (str "extra") envelopeSampleC3.to_ditto_dict
        = (if envelopeSampleC3.extra.isNone then Option.none
           else some envelopeSampleC3.extra) ∧
    dlookup (str "status") envelopeSampleC3.to_ditto_dict
        = (if envelopeSampleC3.status.isNone then Option.none
           else some envelopeSampleC3.status) ∧
    dlookup (str "revision") envelopeSampleC3.to_ditto_dict
        = (if envelopeSampleC3.revision.isNone then Option.none
           else some envelopeSampleC3.revision) ∧
    dlookup (str "timestamp") envelopeSampleC3.to_ditto_dict
        = (if envelopeSampleC3.timestamp.isNone then Option.none
           else some envelopeSampleC3.timestamp) :=
  envelope_to_ditto_dict_keys envelopeSampleC3 rfl

/-- Shape check used to state C4: the `headers` value of an input
dictionary is either absent or a JSON object (the only case in which the
decoded envelope's headers stay inside the `Headers` type). -/
def headersValOkB : Option PyVal → Bool
  | Option.none => true
  | some (.dict _) => true
  | some _ => false

/-- C4 (amended): a dictionary without the `topic` key is returned
unchanged by `Envelope.from_ditto_dict` — no error, no field assignment
(the pass-through branch returns before touching `self`); a dictionary
with a `topic` key whose value is a parseable topic string (and whose
`headers` value, when present, is an object) yields the envelope populated
from the recognized keys: parsed topic, decoded headers (fresh empty
`Headers` when the key is absent), and each of
path/value/fields/extra/status/revision/timestamp copied verbatim when
present and left at its prior value when absent. -/
theorem envelope_from_ditto_dict_passthrough_and_populate :
    (∀ (x : Envelope) (d : Dict), dlookup (str "topic") d = Option.none →
      Envelope.from_ditto_dict x d = .ok (.inr d)) ∧
    (∀ (x : Envelope) (d : Dict) (s : Str) (tp : Topic),
      dlookup (str "topic") d = some (.str s) →
      Topic.from_string Topic.default s = .ok tp →
      headersValOkB (dlookup (str "headers") d) = true →
      ∃ y : Envelope,
        Envelope.from_ditto_dict x d = .ok (.inl y) ∧
        y.topic = some tp ∧
        (∀ l, dlookup (str "headers") d = some (.dict l) →
          y.headers = some ⟨l⟩) ∧
        (dlookup (str "headers") d = Option.none →
          y.headers = some Headers.default) ∧
        (∀ w, dlookup (str "path") d = some w → y.path = w) ∧
        (dlookup (str "path") d = Option.none → y.path = x.path) ∧
        (∀ w, dlookup (str "value") d = some w → y.value = w) ∧
        (dlookup (str "value") d = Option.none → y.value = x.value) ∧
        (∀ w, dlookup (str "fields") d = some w → y.fields = w) ∧
        (dlookup (str "fields") d = Option.none → y.fields = x.fields) ∧
        (∀ w, dlookup (str "extra") d = some w → y.extra = w) ∧
        (dlookup (str "extra") d = Option.none → y.extra = x.extra) ∧
        (∀ w, dlookup (str "status") d = some w → y.status = w) ∧
        (dlookup (str "status") d = Option.none → y.status = x.status) ∧
        (∀ w, dlookup (str "revision") d = some w → y.revision = w) ∧
        (dlookup (str "revision") d = Option.none → y.revision = x.revision) ∧
        (∀ w, dlookup (str "timestamp") d = some w → y.timestamp = w) ∧
        (dlookup (str "timestamp") d = Option.none →
          y.timestamp = x.timestamp)) := by
  constructor
  · intro x d h
    simp [Envelope.from_ditto_dict, h]
  · intro x d s tp h1 h2 h3
    cases hv : dlookup (str "headers") d with
    | none =>
      refine ⟨Envelope.populate x d tp (some Headers.default), ?_,
        rfl, ?_, fun _ => rfl, ?_, ?_, ?_, ?_, ?_, ?_, ?_, ?_, ?_, ?_, ?_,
        ?_, ?_, ?_⟩
      · simp [Envelope.from_ditto_dict, envelopeJsonKeysAll, h1, h2, hv]
      · intro l hl; cases hl
      all_goals
        first
          | (intro w hw; simp [Envelope.populate, hw])
          | (intro hn; simp [Envelope.populate, hn])
    | some v =>
      cases v with
      | dict l =>
        refine ⟨Envelope.populate x d tp (some ⟨l⟩), ?_,
          rfl, ?_, ?_, ?_, ?_, ?_, ?_, ?_, ?_, ?_, ?_, ?_, ?_, ?_, ?_,
          ?_, ?_⟩
        · simp [Envelope.from_ditto_dict, envelopeJsonKeysAll, h1, h2, hv]
        · intro m hm; cases hm; rfl
        · intro hn; cases hn
        all_goals
          first
            | (intro w hw; simp [Envelope.populate, hw])
            | (intro hn; simp [Envelope.populate, hn])
      | none => simp [headersValOkB, hv] at h3
      | bool b => simp [headersValOkB, hv] at h3
      | int n => simp [headersValOkB, hv] at h3
      | str t => simp [headersValOkB, hv] at h3
      | list m => simp [headersValOkB, hv] at h3

/-- C4 as stated is false on its second half: this dictionary contains the
`topic` key, yet `from_ditto_dict` raises (the two-segment topic string
`x` makes the topic parser hit `elements[2]` out of range) instead of
returning a populated envelope. -/
theorem envelope_from_ditto_dict_counterexample :
    Envelope.from_ditto_dict Envelope.default [(str "topic", .str (str "x"))]
      = .error .indexError := rfl

/-- The input dictionary of the C4 witness: a recognized envelope with a
well-formed topic string, a headers object and a status. -/
def dictSampleC4 : Dict :=
  [(str "topic", .str (str "a/b/things/twin/commands")),
   (str "headers", .dict [(str "correlation-id", .str (str "42"))]),
   (str "status", .int 204)]

/-- The topic parsed from the C4 witness dictionary. -/
def topicSampleC4 : Topic :=
  ⟨some (str "a"), some (str "b"), some (str "things"), some (str "twin"),
   some (str "commands"), Option.none⟩

/-- Witness for C4 at `dictSampleC4`. -/
theorem envelope_from_ditto_dict_witness :
    ∃ y : Envelope,
      Envelope.from_ditto_dict Envelope.default dictSampleC4 = .ok (.inl y) ∧
      y.topic = some topicSampleC4 ∧
      (∀ l, dlookup (str "headers") dictSampleC4 = some (.dict l) →
        y.headers = some ⟨l⟩) ∧
      (dlookup (str "headers") dictSampleC4 = Option.none →
        y.headers = some Headers.default) ∧
      (∀ w, dlookup (str "path") dictSampleC4 = some w → y.path = w) ∧
      (dlookup (str "path") dictSampleC4 = Option.none →
        y.path = Envelope.default.path) ∧
      (∀ w, dlookup (str "value") dictSampleC4 = some w → y.value = w) ∧
      (dlookup (str "value") dictSampleC4 = Option.none →
        y.value = Envelope.default.value) ∧
      (∀ w, dlookup (str "fields") dictSampleC4 = some w → y.fields = w) ∧
      (dlookup (str "fields") dictSampleC4 = Option.none →
        y.fields = Envelope.default.fields) ∧
      (∀ w, dlookup (str "extra") dictSampleC4 = some w → y.extra = w) ∧
      (dlookup (str "extra") dictSampleC4 = Option.none →
        y.extra = Envelope.default.extra) ∧
      (∀ w, dlookup (str "status") dictSampleC4 = some w → y.status = w) ∧
      (dlookup (str "status") dictSampleC4 = Option.none →
        y.status = Envelope.default.status) ∧
      (∀ w, dlookup (str "revision") dictSampleC4 = some w → y.revision = w) ∧
      (dlookup (str "revision") dictSampleC4 = Option.none →
        y.revision = Envelope.default.revision) ∧
      (∀ w, dlookup (str "timestamp") dictSampleC4 = some w →
        y.timestamp = w) ∧
      (dlookup (str "timestamp") dictSampleC4 = Option.none →
        y.timestamp = Envelope.default.timestamp) :=
  envelope_from_ditto_dict_passthrough_and_populate.2 Envelope.default
    dictSampleC4 (str "a/b/things/twin/commands") topicSampleC4 rfl rfl rfl

/-- C8: request-id extraction from an inbound topic.  For
`command///req/42/someCommand` the extracted id is `"42"`; for
`command///req//someCommand` it is the empty string (a one-way message,
the id group `[^/]*` matching the empty string); and every topic string
not of the form `command///req/<id>/<subject>` (slash-free id, slash-free
non-empty subject) yields the empty string. -/
theorem extract_hono_req_id_spec :
    extract_hono_req_id (str "command///req/42/someCommand") = str "42" ∧
    extract_hono_req_id (str "command///req//someCommand") = str "" ∧
    ∀ t : Str, ¬HonoReqMatch t → extract_hono_req_id t = [] := by
  refine ⟨rfl, rfl, ?_⟩
  intro t hM
  unfold extract_hono_req_id
  cases hsp : stripPre honoReqPat t with
  | none => rfl
  | some rest =>
    dsimp only
    cases hall : splitAll '/' rest with
    | nil => rfl
    | cons a l1 =>
      cases l1 with
      | nil => rfl
      | cons b l2 =>
        cases l2 with
        | cons q l3 => rfl
        | nil =>
          show (if b.isEmpty then ([] : Str) else a) = []
          by_cases hb : b.isEmpty
          · rw [if_pos hb]
          · exfalso
            apply hM
            have hT : t = honoReqPat ++ rest := stripPre_eq hsp
            have hres : rest = a ++ '/' :: b := by
              have hj := splitAll_join '/' rest
              rw [hall] at hj
              simpa [joinSep] using hj.symm
            have hma : '/' ∉ a :=
              splitAll_not_mem '/' rest a
                (by rw [hall]; exact List.mem_cons_self a [b])
            have hmb : '/' ∉ b := splitAll_not_mem '/' rest b (by rw [hall]; simp)
            have hbne : b ≠ [] := by
              cases b with
              | nil => exact absurd rfl hb
              | cons x xs => simp
            exact ⟨a, b, by rw [hT, hres, List.append_assoc], hma, hmb, hbne⟩

/-- Witness for C8's universally quantified part at the concrete
non-matching topic `foo`. -/
theorem extract_hono_req_id_spec_witness :
    ¬HonoReqMatch (str "foo") ∧ extract_hono_req_id (str "foo") = [] := by
  have hnm : ¬HonoReqMatch (str "foo") := by
    rintro ⟨u, v, heq, -, -, -⟩
    have hl := congrArg List.length heq
    simp only [List.length_append, List.length_cons] at hl
    have h1 : (str "foo").length = 3 := rfl
    have h2 : honoReqPat.length = 14 := rfl
    rw [h1, h2] at hl
    omega
  exact ⟨hnm, extract_hono_req_id_spec.2.2 (str "foo") hnm⟩
